import Mathlib

/-!
Shallow embedding of the incremental-computation slice of a Buck-family build
system: the dice file-ops keys and file-change tracker
(app/buck2_common/src/dice/file_ops.rs), the cfg-constructor calculation
(app/buck2_cfg_constructor/src/calculation.rs), the dynamic-lambda registry
(app/buck2_build_api/src/dynamic/registry.rs), the audit-providers command loop
(app/buck2_audit_server/src/providers.rs) and the analysis context
(app/buck2_build_api/src/interpreter/rule_defs/context.rs).

Machine integers do not occur on the verified paths; strings model Rust
strings, lists of components model relative paths, and fallible Rust code
returns Except.
-/

/-- A cell-qualified path (buck2_core CellPath): cell name plus the
cell-relative path, modelled as its list of components. -/
structure CellPath where
  cell : String
  path : List String
deriving DecidableEq

/-- CellPath::parent: None exactly when the cell-relative path is empty
(the cell root), otherwise the same cell with the last component dropped. -/
def CellPath.parent (p : CellPath) : Option CellPath :=
  match p.path with
  | [] => none
  | _ :: _ => some ⟨p.cell, p.path.dropLast⟩

/-- Dice key for reading a file (file_ops.rs ReadFileKey). -/
structure ReadFileKey where
  path : CellPath
deriving DecidableEq

/-- Dice key for listing a directory (file_ops.rs ReadDirKey). -/
structure ReadDirKey where
  path : CellPath
deriving DecidableEq

/-- Dice key for path metadata (file_ops.rs PathMetadataKey). -/
structure PathMetadataKey where
  path : CellPath
deriving DecidableEq

/-- The value of a ReadFileKey computation: a token carrying the path, never
the file contents (file_ops.rs FileToken). -/
structure FileToken where
  path : CellPath
deriving DecidableEq

/-- ReadFileKey::compute just wraps the key's path into a token. -/
def ReadFileKey.compute (k : ReadFileKey) : FileToken :=
  ⟨k.path⟩

/-- ReadFileKey's Key::equality implementation: always false, so dependents
always recompute after an invalidation. -/
def ReadFileKey.equality (_x _y : FileToken) : Bool :=
  false

/-- FileChangeTracker (file_ops.rs): batches observed filesystem mutations
into the three dirty sets handed to the dice update transaction. -/
structure FileChangeTracker where
  files_to_dirty : Finset ReadFileKey
  dirs_to_dirty : Finset ReadDirKey
  paths_to_dirty : Finset PathMetadataKey

/-- FileChangeTracker::new. -/
def FileChangeTracker.new : FileChangeTracker :=
  ⟨∅, ∅, ∅⟩

/-- FileChangeTracker::file_contents_modify. -/
def FileChangeTracker.file_contents_modify (t : FileChangeTracker) (path : CellPath) :
    FileChangeTracker :=
  { t with
    files_to_dirty := insert ⟨path⟩ t.files_to_dirty
    paths_to_dirty := insert ⟨path⟩ t.paths_to_dirty }

/-- FileChangeTracker::file_added_or_removed: dirty the file itself, and the
parent directory listing when a parent exists (it does not when the path is a
cell root). -/
def FileChangeTracker.file_added_or_removed (t : FileChangeTracker) (path : CellPath) :
    FileChangeTracker :=
  let t := t.file_contents_modify path
  match path.parent with
  | some parent => { t with dirs_to_dirty := insert ⟨parent⟩ t.dirs_to_dirty }
  | none => t

/-- FileChangeTracker::dir_added_or_removed: the path's metadata is always
dirtied; both ReadDirKey(path) and ReadDirKey(parent) are inserted only
inside the branch where the parent exists. -/
def FileChangeTracker.dir_added_or_removed (t : FileChangeTracker) (path : CellPath) :
    FileChangeTracker :=
  let t := { t with paths_to_dirty := insert ⟨path⟩ t.paths_to_dirty }
  match path.parent with
  | some parent =>
      { t with dirs_to_dirty := insert ⟨path⟩ (insert ⟨parent⟩ t.dirs_to_dirty) }
  | none => t

/-- FileChangeTracker::file_changed. -/
def FileChangeTracker.file_changed (t : FileChangeTracker) (path : CellPath) :
    FileChangeTracker :=
  t.file_contents_modify path

/-- FileChangeTracker::file_removed. -/
def FileChangeTracker.file_removed (t : FileChangeTracker) (path : CellPath) :
    FileChangeTracker :=
  t.file_added_or_removed path

/-- FileChangeTracker::file_added. -/
def FileChangeTracker.file_added (t : FileChangeTracker) (path : CellPath) :
    FileChangeTracker :=
  t.file_added_or_removed path

/-- FileChangeTracker::dir_changed. -/
def FileChangeTracker.dir_changed (t : FileChangeTracker) (path : CellPath) :
    FileChangeTracker :=
  { t with
    paths_to_dirty := insert ⟨path⟩ t.paths_to_dirty
    dirs_to_dirty := insert ⟨path⟩ t.dirs_to_dirty }

/-- FileChangeTracker::dir_added. -/
def FileChangeTracker.dir_added (t : FileChangeTracker) (path : CellPath) :
    FileChangeTracker :=
  t.dir_added_or_removed path

/-- FileChangeTracker::dir_removed. -/
def FileChangeTracker.dir_removed (t : FileChangeTracker) (path : CellPath) :
    FileChangeTracker :=
  t.dir_added_or_removed path

/-- An error produced by a fallible computation (buck2_error / anyhow). -/
structure BuckError where
  msg : String
deriving DecidableEq

/-- A configuration (buck2_core ConfigurationData), identified by name. -/
structure ConfigurationData where
  name : String
deriving DecidableEq

/-- A package/target metadata value (buck2_node MetadataValue). -/
structure MetadataValue where
  json : String
deriving DecidableEq

/-- A rule type (buck2_node RuleType). -/
structure RuleType where
  name : String
deriving DecidableEq

/-- The installed cfg constructor implementation, as far as the calculation
observes it: it supplies the modifier key used to look up package and target
modifiers (CfgConstructorImpl::key). -/
structure CfgConstructorImpl where
  key : String
deriving DecidableEq

/-- A super-package, as consumed by eval_cfg_constructor: its package values,
looked up by key (SuperPackage::package_values().get_package_value_json, a
fallible lookup returning an optional JSON value). -/
structure SuperPackage where
  package_values : String → Except BuckError (Option MetadataValue)

/-- A target node, as consumed by eval_cfg_constructor: its metadata is a
fallible optional key-value map (TargetNodeRef::metadata). -/
structure TargetNode where
  metadata : Except BuckError (Option (List (String × MetadataValue)))

/-- The dice key CfgConstructorInvocationKey (calculation.rs). -/
structure CfgConstructorInvocationKey where
  package_cfg_modifiers : Option MetadataValue
  target_cfg_modifiers : Option MetadataValue
  cfg : ConfigurationData
  cli_modifiers : List String
  rule_type : RuleType
deriving DecidableEq

/-- CfgConstructorInvocationKey's Key::equality implementation: structural on
Ok values, false whenever either side is an Err. -/
def CfgConstructorInvocationKey.equality
    (x y : Except BuckError ConfigurationData) : Bool :=
  match x, y with
  | .ok x, .ok y => x == y
  | _, _ => false

/-- Modelled from the spec: §4.1 says each key type "may additionally declare
a node-local validity"; the engine's Key trait (outside the excerpt) supplies
the behaviour for keys that declare none. The trait default cannot inspect
the arbitrary associated Value type, so it is a constant, and a constant
false would keep every value of every defaulted key out of the cache; hence
the default treats every value as valid. -/
def defaultKeyValidity {E A : Type} (_x : Except E A) : Bool :=
  true

/-- The validity of CfgConstructorInvocationKey: its impl Key block
(calculation.rs lines 101-135) defines compute and equality but declares no
validity override, so the engine default applies. -/
def CfgConstructorInvocationKey.validity
    (x : Except BuckError ConfigurationData) : Bool :=
  defaultKeyValidity x

/-- For contrast, the validity declared by the three file-ops keys
(file_ops.rs): Ok values only. -/
def fileOpsKeyValidity {A : Type} (x : Except BuckError A) : Bool :=
  match x with
  | .ok _ => true
  | .error _ => false

/-- The outcome of eval_cfg_constructor, separating the fast path (the input
configuration returned unchanged, no dice computation) from the slow path
(a CfgConstructorInvocationKey handed to ctx.compute). -/
inductive EvalCfgOutcome where
  | unchanged (cfg : ConfigurationData)
  | computeKey (key : CfgConstructorInvocationKey)
deriving DecidableEq

/-- eval_cfg_constructor (calculation.rs lines 137-164), with the already
resolved optional constructor as input (get_cfg_constructor is a separate
dice computation) and the dice compute of the invocation key left symbolic
in the outcome. -/
def eval_cfg_constructor (ctor : Option CfgConstructorImpl)
    (super_package : SuperPackage) (target : TargetNode)
    (cfg : ConfigurationData) (cli_modifiers : List String)
    (rule_type : RuleType) : Except BuckError EvalCfgOutcome :=
  match ctor with
  | none => .ok (.unchanged cfg)
  | some cfg_constructor => do
    let modifier_key := cfg_constructor.key
    let package_cfg_modifiers ← super_package.package_values modifier_key
    let m ← target.metadata
    let target_cfg_modifiers := m.bind fun l => l.lookup modifier_key
    if package_cfg_modifiers = none ∧ target_cfg_modifiers = none ∧
        cli_modifiers = [] then
      .ok (.unchanged cfg)
    else
      .ok (.computeKey
        { package_cfg_modifiers, target_cfg_modifiers, cfg, cli_modifiers,
          rule_type })

/-- The type of a raw directory entry (buck2_common file_ops). -/
inductive FileType where
  | file
  | directory
  | symlink
deriving DecidableEq

/-- A raw, unvalidated directory entry as returned by the io provider
(RawDirEntry). -/
structure RawDirEntry where
  file_name : String
  file_type : FileType
deriving DecidableEq

/-- A validated directory entry (SimpleDirEntry): its file_name passed
FileNameBuf validation. -/
structure SimpleDirEntry where
  file_name : String
  file_type : FileType
deriving DecidableEq

/-- The output of a read_dir computation (ReadDirOutput): the included,
sorted, filtered entries. Equality is structural. -/
structure ReadDirOutput where
  included : List SimpleDirEntry
deriving DecidableEq

/-- The cell-aware file-ops delegate (file_ops.rs DiceFileOpsDelegate): the
raw io provider, the cell resolver (cell name to project-relative root) and
the per-cell ignore matchers. FileNameBuf::try_from_or_get_back lives outside
the excerpt, so file-name validity is carried as a predicate of the delegate
model. -/
structure DiceFileOpsDelegate where
  io_read_dir : List String → Except BuckError (List RawDirEntry)
  cell_roots : String → List String
  ignores : String → List String → Bool
  valid_file_name : String → Bool

/-- DiceFileOpsDelegate::resolve: cell root joined with the cell-relative
path, as a project-relative path. -/
def DiceFileOpsDelegate.resolve (d : DiceFileOpsDelegate) (p : CellPath) :
    List String :=
  d.cell_roots p.cell ++ p.path

/-- The console message emitted for an invalid file name in a directory
listing. -/
def invalidFileNameMessage (file_name : String) : String :=
  "File name " ++ file_name ++
    " is not valid. Add the path to project.ignore to mute this message"

/-- The filtering loop of DiceFileOpsDelegate::read_dir, over the
already-sorted entries: drop entries whose cell-relative path is ignored;
keep entries with a valid file name; drop entries with an invalid file name,
emitting a console message for each. Returns the included entries and the
emitted messages, each in traversal order. -/
def readDirFilterLoop (d : DiceFileOpsDelegate) (dir : CellPath) :
    List RawDirEntry → List SimpleDirEntry × List String
  | [] => ([], [])
  | e :: rest =>
    if d.ignores dir.cell (dir.path ++ [e.file_name]) then
      readDirFilterLoop d dir rest
    else if d.valid_file_name e.file_name then
      let r := readDirFilterLoop d dir rest
      (⟨e.file_name, e.file_type⟩ :: r.1, r.2)
    else
      let r := readDirFilterLoop d dir rest
      (r.1, invalidFileNameMessage e.file_name :: r.2)

/-- Lexicographic at-most comparison of character lists by scalar value.
Rust compares strings byte-lexicographically; on UTF-8 data that order
coincides with the lexicographic order of the scalar values. -/
def charListLE : List Char → List Char → Bool
  | [], _ => true
  | _ :: _, [] => false
  | a :: as, b :: bs =>
    if a.toNat < b.toNat then true
    else if b.toNat < a.toNat then false
    else charListLE as bs

/-- The comparison used by read_dir's sort: ascending by file_name. -/
def dirEntryLE (a b : RawDirEntry) : Prop :=
  charListLE a.file_name.data b.file_name.data = true

instance : DecidableRel dirEntryLE :=
  fun a b =>
    inferInstanceAs (Decidable (charListLE a.file_name.data b.file_name.data = true))

/-- The error returned when the directory itself is ignored. -/
def dirIgnoredError (dir : CellPath) : BuckError :=
  ⟨"Error checking whether dir " ++ String.intercalate "/" dir.path ++
    " is ignored: path is ignored"⟩

/-- DiceFileOpsDelegate::read_dir (file_ops.rs lines 178-246): first fail if
the directory itself is ignored; then list the raw entries (attaching path
context to an io error); sort them by file_name (the Rust stable sort_by is
modelled by the stable insertion sort); then filter. The console messages are
returned alongside the output. -/
def DiceFileOpsDelegate.read_dir (d : DiceFileOpsDelegate) (path : CellPath) :
    Except BuckError (ReadDirOutput × List String) :=
  if d.ignores path.cell path.path then
    .error (dirIgnoredError path)
  else
    match d.io_read_dir (d.resolve path) with
    | .error e =>
        .error ⟨"Error listing dir " ++ String.intercalate "/" path.path ++
          ": " ++ e.msg⟩
    | .ok entries =>
        let sorted := List.insertionSort dirEntryLE entries
        let r := readDirFilterLoop d path sorted
        .ok (⟨r.1⟩, r.2)

/-- A dependency recorded by a file-ops key computation: every compute first
requests the FileOpsKey (get_default_file_ops), and PathMetadataKey may
additionally request a ReadFileKey. -/
inductive FsComputeDep where
  | fileOpsKey
  | readFileKey (p : CellPath)
deriving DecidableEq

/-- Path metadata (file_ops RawPathMetadata), already mapped to cell paths:
a file with digest and size, a directory, or a symlink with its cell-path
endpoint and resolved target. -/
inductive RawPathMetadata where
  | file (digest : String) (size : Nat)
  | directory
  | symlink (at_path : CellPath) (to_target : String)
deriving DecidableEq

/-- PathMetadataKey::compute (file_ops.rs lines 444-468), against an
environment giving the delegate's read_path_metadata_if_exists result per
path. Returns the computed value together with the list of dice keys the
compute requested: the FileOpsKey always, plus ReadFileKey(at) exactly when
the result is a symlink with endpoint at. -/
def PathMetadataKey.compute
    (env : CellPath → Except BuckError (Option RawPathMetadata))
    (k : PathMetadataKey) :
    Except BuckError (Option RawPathMetadata) × List FsComputeDep :=
  match env k.path with
  | .error e => (.error e, [.fileOpsKey])
  | .ok res =>
    match res with
    | some (.symlink at_path _) =>
        (.ok res, [.fileOpsKey, .readFileKey at_path])
    | _ => (.ok res, [.fileOpsKey])

/-- An artifact reference (buck2_artifact Artifact), by name. -/
structure Artifact where
  name : String
deriving DecidableEq

/-- An output artifact declared at registration, not yet bound to an action
key (buck2_artifact OutputArtifact). -/
structure OutputArtifact where
  name : String
deriving DecidableEq

/-- An output artifact after OutputArtifact::bind: it carries the deferred id
of the DynamicAction it is bound to (its ActionKey). -/
structure BoundArtifact where
  name : String
  action_id : Nat
deriving DecidableEq

/-- A deferred dynamic action: the reservation id of its lambda and the index
of the output it materializes (DynamicAction::new(reserved, i)). -/
structure DynamicAction where
  lambda_reservation : Nat
  output_index : Nat
deriving DecidableEq

/-- A dynamic lambda (buck2_build_api DynamicLambda): owner, dynamic inputs,
static inputs, bound outputs, and the user implementation attached later by
ensure_bound. Modelled from the spec: DynamicLambda lives outside the
excerpt; §3 gives its fields and lifecycle constructed → reserved → bound. -/
structure DynamicLambda where
  owner : String
  dynamic : List Artifact
  inputs : List Artifact
  outputs : List BoundArtifact
  attached_value : Option String
deriving DecidableEq

/-- DynamicLambda::new: constructed with no implementation attached. -/
def DynamicLambda.new (owner : String) (dynamic inputs : List Artifact)
    (outputs : List BoundArtifact) : DynamicLambda :=
  ⟨owner, dynamic, inputs, outputs, none⟩

/-- Modelled from the spec: §4.5 ensure_bound step "attach it to the lambda"
— DynamicLambda::bind (outside the excerpt) attaches the fetched user
implementation. -/
def DynamicLambda.bind (l : DynamicLambda) (v : String) : DynamicLambda :=
  { l with attached_value := some v }

/-- An entry of the deferred registry: a deferred dynamic action, or a
reservation committed to a bound lambda. -/
inductive DeferredEntry where
  | action (a : DynamicAction)
  | boundLambda (l : DynamicLambda)
deriving DecidableEq

/-- Modelled from the spec: the deferred registry (outside the excerpt)
allocates stable ids (reservations and deferred entries) and resolves ids to
entries; §4.5 steps 1-2 and the commit in ensure_bound. -/
structure DeferredRegistry where
  next_id : Nat
  entries : List (Nat × DeferredEntry)
deriving DecidableEq

/-- Modelled from the spec: reserve returns a stable fresh id
(DeferredRegistry::reserve). -/
def DeferredRegistry.reserve (r : DeferredRegistry) : Nat × DeferredRegistry :=
  (r.next_id, { r with next_id := r.next_id + 1 })

/-- Modelled from the spec: defer records a DynamicAction under a fresh id
(DeferredRegistry::defer). -/
def DeferredRegistry.defer (r : DeferredRegistry) (a : DynamicAction) :
    Nat × DeferredRegistry :=
  (r.next_id, ⟨r.next_id + 1, (r.next_id, .action a) :: r.entries⟩)

/-- Modelled from the spec: committing a reservation makes the registry
resolve the reserved id to the bound lambda (DeferredRegistry::bind). -/
def DeferredRegistry.bind (r : DeferredRegistry) (id : Nat) (l : DynamicLambda) :
    DeferredRegistry :=
  { r with entries := (id, .boundLambda l) :: r.entries }

/-- Resolution of a deferred id: the most recently recorded entry wins. -/
def DeferredRegistry.resolve (r : DeferredRegistry) (id : Nat) :
    Option DeferredEntry :=
  r.entries.lookup id

/-- The per-analysis dynamic registry (registry.rs DynamicRegistry): owner
plus the ordered pending (reservation id, lambda) pairs. -/
structure DynamicRegistry where
  owner : String
  pending : List (Nat × DynamicLambda)
deriving DecidableEq

/-- DynamicRegistry::new. -/
def DynamicRegistry.new (owner : String) : DynamicRegistry :=
  ⟨owner, []⟩

/-- The output-binding loop of DynamicRegistry::register: for the i-th output
artifact, defer DynamicAction(reservation, i) and bind the artifact to the
resulting action id. -/
def registerOutputsLoop (reservation : Nat) :
    List OutputArtifact → Nat → DeferredRegistry →
      List BoundArtifact × DeferredRegistry
  | [], _, reg => ([], reg)
  | o :: rest, i, reg =>
    let d := reg.defer ⟨reservation, i⟩
    let r := registerOutputsLoop reservation rest (i + 1) d.2
    (⟨o.name, d.1⟩ :: r.1, r.2)

/-- DynamicRegistry::register (registry.rs lines 43-67): reserve an id, defer
one DynamicAction per output (indexed from 0) binding each output to it,
build the lambda and append (reservation, lambda) to pending; the reservation
id is returned. -/
def DynamicRegistry.register (self : DynamicRegistry)
    (dynamic inputs : List Artifact) (outputs : List OutputArtifact)
    (registry : DeferredRegistry) :
    DynamicRegistry × DeferredRegistry × Nat :=
  let res := registry.reserve
  let outs := registerOutputsLoop res.1 outputs 0 res.2
  let lambda := DynamicLambda.new self.owner dynamic inputs outs.1
  ({ self with pending := self.pending ++ [(res.1, lambda)] }, outs.2, res.1)

/-- A value held by the analysis value fetcher for a deferred id: either an
implementation of the expected dynamic-lambda shape, or a value of some other
shape (whose downcast fails). -/
inductive FetchedValue where
  | lambdaImpl (v : String)
  | otherValue (v : String)
deriving DecidableEq

/-- Modelled from the spec: the AnalysisValueFetcher (outside the excerpt)
fetches the user-provided implementation value by reservation id; the lookup
itself is fallible and the value may be absent. -/
structure AnalysisValueFetcher where
  get : Nat → Except BuckError (Option FetchedValue)

/-- The errors of DynamicRegistry::ensure_bound: a failing fetch, the
"Key is missing in AnalysisValueFetcher" context error for an absent value,
and the internal "Incorrect type" error for a failing downcast. -/
inductive EnsureBoundError where
  | fetchFailed (e : BuckError)
  | missingKey (id : Nat)
  | incorrectType
deriving DecidableEq

/-- The loop of DynamicRegistry::ensure_bound over the pending list: fetch by
reservation id, fail on absence or wrong shape, attach the implementation and
commit the reservation. -/
def ensureBoundLoop (fetcher : AnalysisValueFetcher) :
    List (Nat × DynamicLambda) → DeferredRegistry →
      Except EnsureBoundError DeferredRegistry
  | [], reg => .ok reg
  | (id, data) :: rest, reg =>
    match fetcher.get id with
    | .error e => .error (.fetchFailed e)
    | .ok none => .error (.missingKey id)
    | .ok (some (.otherValue _)) => .error .incorrectType
    | .ok (some (.lambdaImpl fv)) =>
        ensureBoundLoop fetcher rest (reg.bind id (data.bind fv))

/-- DynamicRegistry::ensure_bound (registry.rs lines 69-87). -/
def DynamicRegistry.ensure_bound (self : DynamicRegistry)
    (registry : DeferredRegistry) (fetcher : AnalysisValueFetcher) :
    Except EnsureBoundError DeferredRegistry :=
  ensureBoundLoop fetcher self.pending registry

/-- A configured providers label, the per-target identity printed by audit
providers. -/
structure ProvidersLabel where
  name : String
deriving DecidableEq

/-- A frozen provider collection, as far as the audit output observes it: its
provider names, and its debug and display renderings. -/
structure ProviderCollection where
  provider_names : List String
  debug_repr : String
  display_repr : String
deriving DecidableEq

/-- The audit providers subcommand flags. -/
structure AuditProvidersCommand where
  quiet : Bool
  list : Bool
  print_debug : Bool
deriving DecidableEq

/-- Modelled from the spec: buck2_util indent (outside the excerpt) prefixes
every line of the rendered text. -/
def indentText (pre : String) (s : String) : String :=
  let lines := s.splitOn "\n"
  let lines := if lines.getLast? = some "" then lines.dropLast else lines
  String.join (lines.map fun l => pre ++ l ++ "\n")

/-- Modelled from the spec: §6 describes each per-target result as either an
evaluated provider collection or a failure; target incompatibility
(MaybeCompatible::require_compatible, outside the excerpt) is not part of the
spec, so a successful evaluation carries the collection itself and
require_compatible is the identity. -/
def require_compatible (v : ProviderCollection) : ProviderCollection :=
  v

/-- The ordering used for provider_names.sort(). -/
def stringLE (a b : String) : Prop :=
  a ≤ b

instance : DecidableRel stringLE :=
  fun a b => inferInstanceAs (Decidable (a ≤ b))

/-- The stdout line(s) written for one successfully evaluated target
(providers.rs lines 129-163), per display flag. -/
def render_success (cmd : AuditProvidersCommand) (target : ProvidersLabel)
    (v : ProviderCollection) : String :=
  let v := require_compatible v
  if cmd.quiet then
    target.name ++ "\n"
  else if cmd.list then
    let provider_names := List.insertionSort stringLE v.provider_names
    target.name ++ ":\n" ++
      indentText "  "
        (provider_names.foldl (fun acc arg => acc ++ "- " ++ arg ++ "\n") "")
  else if cmd.print_debug then
    target.name ++ ":\n" ++ indentText "  " v.debug_repr
  else
    target.name ++ ":\n" ++ indentText "  " v.display_repr

/-- The stderr diagnostic written for one failed target (providers.rs lines
165-172). -/
def render_failure (target : ProvidersLabel) (e : BuckError) : String :=
  target.name ++ ": failed:\n" ++ indentText "  " e.msg

/-- The error AuditProvidersError::AtLeastOneFailed, whose message is
"Evaluation of at least one target providers failed". -/
inductive AuditProvidersError where
  | atLeastOneFailed
deriving DecidableEq

/-- The result loop of server_execute_with_dice (providers.rs lines 126-175):
stream the per-target results in order, appending success renderings to
stdout and failure diagnostics to stderr, and record whether any evaluation
failed. -/
def auditResultsLoop (cmd : AuditProvidersCommand) :
    List (ProvidersLabel × Except BuckError ProviderCollection) →
      String × String × Bool
  | [] => ("", "", false)
  | (target, result) :: rest =>
    let r := auditResultsLoop cmd rest
    match result with
    | .ok v => (render_success cmd target v ++ r.1, r.2.1, r.2.2)
    | .error e => (r.1, render_failure target e ++ r.2.1, true)

/-- server_execute_with_dice (providers.rs lines 62-186), from the per-target
evaluation results: the accumulated stdout, the accumulated stderr, and the
final command result, which is AtLeastOneFailed exactly when the loop saw a
failed evaluation. -/
def server_execute_with_dice (cmd : AuditProvidersCommand)
    (results : List (ProvidersLabel × Except BuckError ProviderCollection)) :
    String × String × Except AuditProvidersError Unit :=
  let r := auditResultsLoop cmd results
  (r.1, r.2.1, if r.2.2 then .error .atLeastOneFailed else .ok ())

/-- The analysis registry owned by an analysis context, identified
abstractly. -/
structure AnalysisRegistry where
  id : Nat
deriving DecidableEq

/-- AnalysisActions::state (context.rs lines 76-81): reads the optional
registry cell, panicking ("state to be present during execution") when it is
empty. A panic is modelled as the Except error carrying the expect
message. -/
def AnalysisActions.state_access (state : Option AnalysisRegistry) :
    Except String AnalysisRegistry :=
  match state with
  | some r => .ok r
  | none => .error "state to be present during execution"

/-- AnalysisContext::take_state (context.rs lines 242-249): Option::take on
the registry cell — returns the registry and leaves the cell empty,
panicking ("nothing to have stolen state yet") when the cell is already
empty. The returned pair is (taken registry, new cell contents). -/
def AnalysisContext.take_state (state : Option AnalysisRegistry) :
    Except String (AnalysisRegistry × Option AnalysisRegistry) :=
  match state with
  | some r => .ok (r, none)
  | none => .error "nothing to have stolen state yet"

/-- A sample super-package with no package values, for concrete evaluation. -/
def sampleSuperPackage : SuperPackage :=
  ⟨fun _ => .ok none⟩

/-- A sample target node with no metadata, for concrete evaluation. -/
def sampleTarget : TargetNode :=
  ⟨.ok none⟩

/-- The ordering of validated directory entries by file name. -/
def simpleEntryLE (a b : SimpleDirEntry) : Prop :=
  charListLE a.file_name.data b.file_name.data = true

/-- The per-entry decision of the read_dir filtering loop: none for an
ignored or invalid entry, the validated entry otherwise. -/
def readDirEntryFilter (d : DiceFileOpsDelegate) (dir : CellPath)
    (e : RawDirEntry) : Option SimpleDirEntry :=
  if d.ignores dir.cell (dir.path ++ [e.file_name]) then none
  else if d.valid_file_name e.file_name then some ⟨e.file_name, e.file_type⟩
  else none

/-- A sample cell-aware delegate over a directory listing b.txt, target and
a.txt, where the cell-relative path foo/target is ignored. -/
def sampleDelegate : DiceFileOpsDelegate where
  io_read_dir := fun p =>
    if p = ["cells", "c", "foo"] then
      .ok [⟨"b.txt", .file⟩, ⟨"target", .directory⟩, ⟨"a.txt", .file⟩]
    else
      .error ⟨"no such directory"⟩
  cell_roots := fun _ => ["cells", "c"]
  ignores := fun c rel => c == "c" && rel == ["foo", "target"]
  valid_file_name := fun n => !(n == "")

/-- A sample metadata environment mapping one path to a symlink and another
to a file, for concrete evaluation of PathMetadataKey::compute. -/
def sampleMetadataEnv : CellPath → Except BuckError (Option RawPathMetadata) :=
  fun p =>
    if p = ⟨"c", ["lnk"]⟩ then
      .ok (some (.symlink ⟨"c", ["real.txt"]⟩ "real.txt"))
    else if p = ⟨"c", ["real.txt"]⟩ then
      .ok (some (.file "digest0" 4))
    else
      .ok none

/-- A sample fetcher holding implementations for reservations 0 and 1. -/
def sampleFetcher : AnalysisValueFetcher :=
  ⟨fun id =>
    if id = 0 then .ok (some (.lambdaImpl "impl0"))
    else if id = 1 then .ok (some (.lambdaImpl "impl1"))
    else .ok none⟩

/-- A sample dynamic registry with two pending lambdas reserved at ids 0 and
1. -/
def sampleDynamicRegistry : DynamicRegistry :=
  ⟨"cell//pkg:target",
    [(0, DynamicLambda.new "cell//pkg:target" [] [] []),
     (1, DynamicLambda.new "cell//pkg:target" [⟨"dyn.txt"⟩] [] [])]⟩

/-- C9: for every pair of FileToken values, ReadFileKey's equality predicate
returns false — a recomputed ReadFileKey value never compares equal to the
previous one, so dependents are always forced to recompute after an
invalidation. -/
theorem readFileKey_equality_always_false (x y : FileToken) :
    ReadFileKey.equality x y = false :=
  rfl

/-- C10: take_state succeeds at most once: on a context whose actions state
cell holds a registry it returns that registry and leaves the cell empty;
on an emptied cell a further take_state panics, and so does any state()
access. -/
theorem take_state_at_most_once (r : AnalysisRegistry) :
    AnalysisContext.take_state (some r) = .ok (r, none) ∧
    AnalysisContext.take_state (none : Option AnalysisRegistry) =
      .error "nothing to have stolen state yet" ∧
    AnalysisActions.state_access (none : Option AnalysisRegistry) =
      .error "state to be present during execution" :=
  ⟨rfl, rfl, rfl⟩

/-- C3: on a fresh tracker, file_changed(p) dirties exactly ReadFileKey(p)
and PathMetadataKey(p) and no ReadDirKey; file_added(p) and file_removed(p)
dirty exactly that set plus ReadDirKey(parent(p)) when a parent exists. -/
theorem file_changed_dirties_exactly (p : CellPath) :
    (FileChangeTracker.new.file_changed p).files_to_dirty =
        ({⟨p⟩} : Finset ReadFileKey) ∧
    (FileChangeTracker.new.file_changed p).paths_to_dirty =
        ({⟨p⟩} : Finset PathMetadataKey) ∧
    (FileChangeTracker.new.file_changed p).dirs_to_dirty = ∅ ∧
    (FileChangeTracker.new.file_added p).files_to_dirty =
        ({⟨p⟩} : Finset ReadFileKey) ∧
    (FileChangeTracker.new.file_added p).paths_to_dirty =
        ({⟨p⟩} : Finset PathMetadataKey) ∧
    (FileChangeTracker.new.file_added p).dirs_to_dirty =
        (match p.parent with
         | some q => ({⟨q⟩} : Finset ReadDirKey)
         | none => ∅) ∧
    FileChangeTracker.new.file_removed p = FileChangeTracker.new.file_added p := by
  refine ⟨rfl, rfl, rfl, ?_, ?_, ?_, rfl⟩ <;>
    · unfold FileChangeTracker.file_added FileChangeTracker.file_added_or_removed
      cases hp : p.parent <;>
        simp [FileChangeTracker.new, FileChangeTracker.file_contents_modify, hp]

/-- C2 counterexample: for the cell-root path (no parent), dir_added does not
dirty ReadDirKey of the path itself — ReadDirKey(path) is only inserted
inside the branch that requires a parent to exist. -/
theorem dir_added_no_parent_counterexample :
    (⟨⟨"root", []⟩⟩ : ReadDirKey) ∉
      (FileChangeTracker.new.dir_added ⟨"root", []⟩).dirs_to_dirty := by
  decide

/-- C2 amended: dir_added(p) and dir_removed(p) always dirty
PathMetadataKey(p); when p has a parent they additionally dirty both
ReadDirKey(p) and ReadDirKey(parent(p)); when p has no parent, no ReadDirKey
at all is dirtied. -/
theorem dir_added_or_removed_dirties (p : CellPath) :
    (FileChangeTracker.new.dir_added p).paths_to_dirty =
        ({⟨p⟩} : Finset PathMetadataKey) ∧
    (FileChangeTracker.new.dir_added p).files_to_dirty = ∅ ∧
    (FileChangeTracker.new.dir_added p).dirs_to_dirty =
        (match p.parent with
         | some q => ({⟨p⟩, ⟨q⟩} : Finset ReadDirKey)
         | none => ∅) ∧
    FileChangeTracker.new.dir_removed p = FileChangeTracker.new.dir_added p := by
  refine ⟨?_, ?_, ?_, rfl⟩ <;>
    · unfold FileChangeTracker.dir_added FileChangeTracker.dir_added_or_removed
      cases hp : p.parent <;> simp [FileChangeTracker.new, hp]

/-- C1 counterexample: CfgConstructorInvocationKey's effective validity
predicate returns true, not false, on an Err value, so a failed invocation is
not excluded from the cache by validity. -/
theorem cfg_invocation_validity_err_counterexample :
    CfgConstructorInvocationKey.validity (.error ⟨"analysis failed"⟩) = true :=
  rfl

/-- C1 amended: CfgConstructorInvocationKey declares no validity override, so
the engine default applies and every value — Err values included — is valid
and may be cached; its equality predicate however returns false whenever
either side is an Err, so a cached failure never short-circuits recomputation
through equality. -/
theorem cfg_invocation_validity_is_default
    (x : Except BuckError ConfigurationData) (e : BuckError) :
    CfgConstructorInvocationKey.validity x = defaultKeyValidity x ∧
    CfgConstructorInvocationKey.validity (.error e) = true ∧
    CfgConstructorInvocationKey.equality (.error e) x = false ∧
    CfgConstructorInvocationKey.equality x (.error e) = false := by
  refine ⟨rfl, rfl, rfl, ?_⟩
  cases x <;> rfl

/-- C4: eval_cfg_constructor returns the input configuration unchanged, with
no CfgConstructorInvocationKey computed, when no constructor is installed or
when all three modifier sources are empty; otherwise it computes the
invocation key built from exactly those inputs. -/
theorem eval_cfg_constructor_fast_path (sp : SuperPackage) (target : TargetNode)
    (cfg : ConfigurationData) (cli : List String) (rt : RuleType) :
    eval_cfg_constructor none sp target cfg cli rt = .ok (.unchanged cfg) ∧
    ∀ (c : CfgConstructorImpl) (pkg : Option MetadataValue)
        (m : Option (List (String × MetadataValue))),
      sp.package_values c.key = .ok pkg →
      target.metadata = .ok m →
      (pkg = none ∧ (m.bind fun l => l.lookup c.key) = none ∧ cli = [] →
        eval_cfg_constructor (some c) sp target cfg cli rt =
          .ok (.unchanged cfg)) ∧
      (¬(pkg = none ∧ (m.bind fun l => l.lookup c.key) = none ∧ cli = []) →
        eval_cfg_constructor (some c) sp target cfg cli rt =
          .ok (.computeKey
            ⟨pkg, m.bind fun l => l.lookup c.key, cfg, cli, rt⟩)) := by
  refine ⟨rfl, ?_⟩
  intro c pkg m hpkg hm
  constructor
  · intro hempty
    simp only [eval_cfg_constructor, hpkg, hm, bind, Except.bind]
    rw [if_pos hempty]
  · intro hne
    simp only [eval_cfg_constructor, hpkg, hm, bind, Except.bind]
    rw [if_neg hne]

/-- C4 witness: with a constructor installed and a nonempty cli modifier
list, the invocation key is computed from the inputs; the other hypotheses
hold by evaluation of the sample super-package and target. -/
theorem eval_cfg_constructor_fast_path_witness :
    sampleSuperPackage.package_values "cfg_modifiers" = .ok none ∧
    sampleTarget.metadata = .ok none ∧
    ¬((none : Option MetadataValue) = none ∧
        ((none : Option (List (String × MetadataValue))).bind
          fun l => l.lookup "cfg_modifiers") = none ∧
        ["mode//opt"] = ([] : List String)) ∧
    eval_cfg_constructor (some ⟨"cfg_modifiers"⟩) sampleSuperPackage
        sampleTarget ⟨"base"⟩ ["mode//opt"] ⟨"rust_library"⟩ =
      .ok (.computeKey ⟨none, none, ⟨"base"⟩, ["mode//opt"], ⟨"rust_library"⟩⟩) :=
  ⟨rfl, rfl, by decide,
    ((eval_cfg_constructor_fast_path sampleSuperPackage sampleTarget
        ⟨"base"⟩ ["mode//opt"] ⟨"rust_library"⟩).2
      ⟨"cfg_modifiers"⟩ none none rfl rfl).2 (by decide)⟩

/-- C8: when the metadata of a path computes to a symlink, the
PathMetadataKey compute additionally requests ReadFileKey on the symlink's
at path, recording it as a dependency; for a non-symlink result no
ReadFileKey is requested at all. -/
theorem path_metadata_symlink_dependency
    (env : CellPath → Except BuckError (Option RawPathMetadata))
    (k : PathMetadataKey) :
    (∀ at_path to_target,
      env k.path = .ok (some (.symlink at_path to_target)) →
      (PathMetadataKey.compute env k).1 =
          .ok (some (.symlink at_path to_target)) ∧
      FsComputeDep.readFileKey at_path ∈ (PathMetadataKey.compute env k).2) ∧
    (∀ res, env k.path = .ok res →
      (∀ at_path to_target, res ≠ some (.symlink at_path to_target)) →
      ∀ q, FsComputeDep.readFileKey q ∉ (PathMetadataKey.compute env k).2) := by
  constructor
  · intro at_path to_target h
    unfold PathMetadataKey.compute
    rw [h]
    exact ⟨rfl, by simp⟩
  · intro res h hns q
    unfold PathMetadataKey.compute
    rw [h]
    match res with
    | none => simp
    | some (.file d s) => simp
    | some .directory => simp
    | some (.symlink a t) => exact absurd rfl (hns a t)

/-- C8 witness: in the sample metadata environment, the symlink path records
a ReadFileKey dependency on its endpoint, and the plain-file path records
none. -/
theorem path_metadata_symlink_dependency_witness :
    sampleMetadataEnv (⟨"c", ["lnk"]⟩ : CellPath) =
      .ok (some (.symlink ⟨"c", ["real.txt"]⟩ "real.txt")) ∧
    FsComputeDep.readFileKey ⟨"c", ["real.txt"]⟩ ∈
      (PathMetadataKey.compute sampleMetadataEnv ⟨⟨"c", ["lnk"]⟩⟩).2 ∧
    sampleMetadataEnv (⟨"c", ["real.txt"]⟩ : CellPath) =
      .ok (some (.file "digest0" 4)) ∧
    FsComputeDep.readFileKey ⟨"c", ["real.txt"]⟩ ∉
      (PathMetadataKey.compute sampleMetadataEnv ⟨⟨"c", ["real.txt"]⟩⟩).2 :=
  ⟨rfl,
    ((path_metadata_symlink_dependency sampleMetadataEnv
          ⟨⟨"c", ["lnk"]⟩⟩).1 ⟨"c", ["real.txt"]⟩ "real.txt" rfl).2,
    rfl,
    (path_metadata_symlink_dependency sampleMetadataEnv
          ⟨⟨"c", ["real.txt"]⟩⟩).2 (some (.file "digest0" 4)) rfl
        (by intro a t h; cases h) ⟨"c", ["real.txt"]⟩⟩

/-- String.join distributes over cons. -/
theorem string_join_cons (s : String) (l : List String) :
    String.join (s :: l) = s ++ String.join l := by
  apply String.ext
  simp [String.join_eq]

/-- The accumulated stdout, stderr and failure flag of the audit providers
result loop: stdout is the in-order concatenation of the success renderings,
stderr the in-order concatenation of the failure diagnostics, and the flag is
set exactly when some target failed. -/
theorem auditResultsLoop_spec (cmd : AuditProvidersCommand)
    (results : List (ProvidersLabel × Except BuckError ProviderCollection)) :
    (auditResultsLoop cmd results).1 =
      String.join (results.filterMap fun pr =>
        match pr.2 with
        | .ok v => some (render_success cmd pr.1 v)
        | .error _ => none) ∧
    (auditResultsLoop cmd results).2.1 =
      String.join (results.filterMap fun pr =>
        match pr.2 with
        | .ok _ => none
        | .error e => some (render_failure pr.1 e)) ∧
    ((auditResultsLoop cmd results).2.2 = true ↔
      ∃ t e, (t, Except.error e) ∈ results) := by
  induction results with
  | nil =>
    refine ⟨rfl, rfl, ?_⟩
    simp [auditResultsLoop]
  | cons pr rest ih =>
    obtain ⟨t, r⟩ := pr
    obtain ⟨ih1, ih2, ih3⟩ := ih
    cases r with
    | ok v =>
      refine ⟨?_, ?_, ?_⟩
      · simp only [auditResultsLoop, List.filterMap_cons, string_join_cons, ih1]
      · simpa only [auditResultsLoop, List.filterMap_cons] using ih2
      · simp only [auditResultsLoop, ih3, List.mem_cons]
        constructor
        · rintro ⟨t2, e2, h⟩
          exact ⟨t2, e2, Or.inr h⟩
        · rintro ⟨t2, e2, h | h⟩
          · cases h
          · exact ⟨t2, e2, h⟩
    | error e =>
      refine ⟨?_, ?_, ?_⟩
      · simpa only [auditResultsLoop, List.filterMap_cons] using ih1
      · simp only [auditResultsLoop, List.filterMap_cons, string_join_cons, ih2]
      · simp only [auditResultsLoop, List.mem_cons]
        constructor
        · intro _
          exact ⟨t, e, Or.inl rfl⟩
        · intro _
          trivial

/-- C7: audit providers writes each successfully evaluated target's providers
to stdout and each failed target's diagnostic to stderr, both in result
order, and returns the AtLeastOneFailed error ("Evaluation of at least one
target providers failed") exactly when at least one target's provider
evaluation returned an error. -/
theorem audit_providers_at_least_one_failed (cmd : AuditProvidersCommand)
    (results : List (ProvidersLabel × Except BuckError ProviderCollection)) :
    (server_execute_with_dice cmd results).1 =
      String.join (results.filterMap fun pr =>
        match pr.2 with
        | .ok v => some (render_success cmd pr.1 v)
        | .error _ => none) ∧
    (server_execute_with_dice cmd results).2.1 =
      String.join (results.filterMap fun pr =>
        match pr.2 with
        | .ok _ => none
        | .error e => some (render_failure pr.1 e)) ∧
    ((server_execute_with_dice cmd results).2.2 =
        .error .atLeastOneFailed ↔ ∃ t e, (t, Except.error e) ∈ results) ∧
    ((server_execute_with_dice cmd results).2.2 = .ok () ↔
      ∀ p ∈ results, ∃ v, p.2 = Except.ok v) := by
  obtain ⟨h1, h2, h3⟩ := auditResultsLoop_spec cmd results
  refine ⟨h1, h2, ?_, ?_⟩
  · rw [← h3]
    unfold server_execute_with_dice
    cases hb : (auditResultsLoop cmd results).2.2 <;> simp [hb]
  · rw [show (∀ p ∈ results, ∃ v, p.2 = Except.ok v) ↔
        ¬∃ t e, (t, Except.error e) ∈ results from ?_]
    · rw [← h3]
      unfold server_execute_with_dice
      cases hb : (auditResultsLoop cmd results).2.2 <;> simp [hb]
    · constructor
      · rintro h ⟨t2, e2, hmem⟩
        obtain ⟨v, hv⟩ := h (t2, Except.error e2) hmem
        cases hv
      · intro h p hp
        obtain ⟨t2, r2⟩ := p
        cases r2 with
        | ok v => exact ⟨v, rfl⟩
        | error e2 => exact absurd ⟨t2, e2, hp⟩ h

/-- charListLE is total. -/
theorem charListLE_total : ∀ xs ys : List Char,
    charListLE xs ys = true ∨ charListLE ys xs = true := by
  intro xs
  induction xs with
  | nil => intro ys; left; rfl
  | cons x xs ih =>
    intro ys
    cases ys with
    | nil => right; rfl
    | cons y ys =>
      by_cases h1 : x.toNat < y.toNat
      · left; simp [charListLE, h1]
      · by_cases h2 : y.toNat < x.toNat
        · right; simp [charListLE, h2]
        · rcases ih ys with h | h
          · left; simp [charListLE, h1, h2, h]
          · right; simp [charListLE, h1, h2, h]

/-- charListLE is transitive. -/
theorem charListLE_trans : ∀ xs ys zs : List Char,
    charListLE xs ys = true → charListLE ys zs = true →
    charListLE xs zs = true := by
  intro xs
  induction xs with
  | nil => intro ys zs h1 h2; rfl
  | cons x xs ih =>
    intro ys zs h1 h2
    cases ys with
    | nil => simp [charListLE] at h1
    | cons y ys =>
      cases zs with
      | nil => simp [charListLE] at h2
      | cons z zs =>
        simp only [charListLE] at h1 h2 ⊢
        split_ifs at h1 h2 ⊢
        all_goals first
          | rfl
          | (exfalso; omega)
          | exact ih ys zs h1 h2

/-- The included entries of the read_dir filtering loop are the filterMap of
the per-entry decision over the traversed list. -/
theorem readDirFilterLoop_fst (d : DiceFileOpsDelegate) (dir : CellPath)
    (l : List RawDirEntry) :
    (readDirFilterLoop d dir l).1 = l.filterMap (readDirEntryFilter d dir) := by
  induction l with
  | nil => rfl
  | cons e rest ih =>
    by_cases hig : d.ignores dir.cell (dir.path ++ [e.file_name])
    · simp [readDirFilterLoop, readDirEntryFilter, hig, ih]
    · by_cases hv : d.valid_file_name e.file_name
      · simp [readDirFilterLoop, readDirEntryFilter, hig, hv, ih]
      · simp [readDirFilterLoop, readDirEntryFilter, hig, hv, ih]

/-- What a kept entry of the filtering loop satisfies: its name is the raw
entry's name, the raw entry is not ignored, and the name is valid. -/
theorem readDirEntryFilter_some (d : DiceFileOpsDelegate) (dir : CellPath)
    (e : RawDirEntry) (s : SimpleDirEntry)
    (h : readDirEntryFilter d dir e = some s) :
    s.file_name = e.file_name ∧
    d.ignores dir.cell (dir.path ++ [e.file_name]) = false ∧
    d.valid_file_name e.file_name = true := by
  unfold readDirEntryFilter at h
  by_cases hig : d.ignores dir.cell (dir.path ++ [e.file_name])
  · rw [if_pos hig] at h
    cases h
  · rw [if_neg hig] at h
    by_cases hv : d.valid_file_name e.file_name
    · rw [if_pos hv] at h
      cases h
      exact ⟨rfl, by simpa using hig, hv⟩
    · rw [if_neg hv] at h
      cases h

/-- Every non-ignored entry with an invalid name contributes its console
message to the loop's message list. -/
theorem readDirFilterLoop_message (d : DiceFileOpsDelegate) (dir : CellPath)
    (l : List RawDirEntry) (e : RawDirEntry) (hmem : e ∈ l)
    (hig : d.ignores dir.cell (dir.path ++ [e.file_name]) = false)
    (hv : d.valid_file_name e.file_name = false) :
    invalidFileNameMessage e.file_name ∈ (readDirFilterLoop d dir l).2 := by
  induction l with
  | nil => cases hmem
  | cons a rest ih =>
    rcases List.mem_cons.mp hmem with h | h
    · subst h
      simp [readDirFilterLoop, hig, hv]
    · by_cases hig2 : d.ignores dir.cell (dir.path ++ [a.file_name])
      · simpa [readDirFilterLoop, hig2] using ih h
      · by_cases hv2 : d.valid_file_name a.file_name
        · simpa [readDirFilterLoop, hig2, hv2] using ih h
        · simp only [readDirFilterLoop, hig2, hv2]
          simp only [Bool.false_eq_true, if_false, if_true, List.mem_cons]
          exact Or.inr (ih h)

/-- C5: the cell-aware delegate's read_dir fails with the descriptive error
when the directory itself is ignored; otherwise its output is sorted
ascending by file_name, contains no entry whose cell-relative path is
ignored and no entry with an invalid file name, and every non-ignored raw
entry with an invalid name is skipped after emitting its console message. -/
theorem read_dir_delegate_spec (d : DiceFileOpsDelegate) (p : CellPath) :
    (d.ignores p.cell p.path = true →
      d.read_dir p = .error (dirIgnoredError p)) ∧
    (∀ out msgs, d.read_dir p = .ok (out, msgs) →
      List.Pairwise simpleEntryLE out.included ∧
      (∀ e ∈ out.included,
        d.ignores p.cell (p.path ++ [e.file_name]) = false ∧
        d.valid_file_name e.file_name = true) ∧
      (∀ entries, d.io_read_dir (d.resolve p) = .ok entries →
        ∀ e ∈ entries,
          d.ignores p.cell (p.path ++ [e.file_name]) = false →
          d.valid_file_name e.file_name = false →
          invalidFileNameMessage e.file_name ∈ msgs)) := by
  constructor
  · intro hig
    simp [DiceFileOpsDelegate.read_dir, hig]
  · intro out msgs h
    by_cases hig : d.ignores p.cell p.path
    · simp [DiceFileOpsDelegate.read_dir, hig] at h
    · cases hio : d.io_read_dir (d.resolve p) with
      | error e => simp [DiceFileOpsDelegate.read_dir, hig, hio] at h
      | ok entries0 =>
        simp only [DiceFileOpsDelegate.read_dir, hig, hio, if_neg,
          Bool.false_eq_true, if_false, Except.ok.injEq, Prod.mk.injEq] at h
        obtain ⟨hout, hmsgs⟩ := h
        refine ⟨?_, ?_, ?_⟩
        · rw [← hout]
          have hsorted : List.Pairwise dirEntryLE
              (List.insertionSort dirEntryLE entries0) := by
            haveI : IsTotal RawDirEntry dirEntryLE :=
              ⟨fun a b => charListLE_total a.file_name.data b.file_name.data⟩
            haveI : IsTrans RawDirEntry dirEntryLE :=
              ⟨fun a b c h h2 =>
                charListLE_trans a.file_name.data b.file_name.data
                  c.file_name.data h h2⟩
            exact List.sorted_insertionSort dirEntryLE entries0
          have := readDirFilterLoop_fst d p
            (List.insertionSort dirEntryLE entries0)
          show List.Pairwise simpleEntryLE
            (readDirFilterLoop d p (List.insertionSort dirEntryLE entries0)).1
          rw [this]
          refine List.Pairwise.filterMap (readDirEntryFilter d p) ?_ hsorted
          intro a b hab x hx y hy
          obtain ⟨hxa, _, _⟩ := readDirEntryFilter_some d p a x hx
          obtain ⟨hyb, _, _⟩ := readDirEntryFilter_some d p b y hy
          show charListLE x.file_name.data y.file_name.data = true
          rw [hxa, hyb]
          exact hab
        · intro e he
          rw [← hout] at he
          rw [readDirFilterLoop_fst] at he
          obtain ⟨a, _, hfa⟩ := List.mem_filterMap.mp he
          obtain ⟨hname, hig2, hv2⟩ := readDirEntryFilter_some d p a e hfa
          rw [hname]
          exact ⟨hig2, hv2⟩
        · intro entries hentries e he hig2 hv2
          cases hentries
          rw [← hmsgs]
          exact readDirFilterLoop_message d p _ e
            ((List.mem_insertionSort dirEntryLE).mpr he) hig2 hv2

/-- C5 witness: on the sample delegate, listing foo (ignore pattern
foo/target) returns exactly a.txt and b.txt in sorted order with no console
message, and listing the ignored foo/target itself fails with the
descriptive error. -/
theorem read_dir_delegate_spec_witness :
    sampleDelegate.ignores "c" ["foo", "target"] = true ∧
    sampleDelegate.read_dir ⟨"c", ["foo", "target"]⟩ =
      .error (dirIgnoredError ⟨"c", ["foo", "target"]⟩) ∧
    sampleDelegate.read_dir ⟨"c", ["foo"]⟩ =
      .ok (⟨[⟨"a.txt", .file⟩, ⟨"b.txt", .file⟩]⟩, []) ∧
    List.Pairwise simpleEntryLE
      [(⟨"a.txt", .file⟩ : SimpleDirEntry), ⟨"b.txt", .file⟩] :=
  ⟨by rfl,
    (read_dir_delegate_spec sampleDelegate ⟨"c", ["foo", "target"]⟩).1 (by rfl),
    by rfl,
    ((read_dir_delegate_spec sampleDelegate ⟨"c", ["foo"]⟩).2
        ⟨[⟨"a.txt", .file⟩, ⟨"b.txt", .file⟩]⟩ [] (by rfl)).1⟩

/-- When every pending reservation has an implementation of the right shape,
the binding loop succeeds, commits exactly one entry per pending lambda, and
makes the registry resolve each reservation id to its bound lambda; ids not
in the pending list resolve as before. -/
theorem ensureBoundLoop_success (fetcher : AnalysisValueFetcher) :
    ∀ (l : List (Nat × DynamicLambda)) (reg : DeferredRegistry),
      (∀ p ∈ l, ∃ v, fetcher.get p.1 = .ok (some (.lambdaImpl v))) →
      (l.map Prod.fst).Nodup →
      ∃ reg2, ensureBoundLoop fetcher l reg = .ok reg2 ∧
        reg2.entries.length = l.length + reg.entries.length ∧
        (∀ id data, (id, data) ∈ l → ∀ v,
          fetcher.get id = .ok (some (.lambdaImpl v)) →
          reg2.resolve id = some (.boundLambda (data.bind v))) ∧
        (∀ id, id ∉ l.map Prod.fst → reg2.resolve id = reg.resolve id) := by
  intro l
  induction l with
  | nil =>
    intro reg _ _
    refine ⟨reg, rfl, by simp, ?_, fun id _ => rfl⟩
    intro id data hmem
    cases hmem
  | cons p0 rest ih =>
    obtain ⟨id0, data0⟩ := p0
    intro reg hall hnd
    obtain ⟨v0, hv0⟩ := hall (id0, data0) (List.mem_cons_self _ _)
    have hall2 : ∀ p ∈ rest, ∃ v, fetcher.get p.1 = .ok (some (.lambdaImpl v)) :=
      fun p hp => hall p (List.mem_cons_of_mem _ hp)
    have hnd2 : (rest.map Prod.fst).Nodup := (List.nodup_cons.mp hnd).2
    have hid0 : id0 ∉ rest.map Prod.fst := (List.nodup_cons.mp hnd).1
    obtain ⟨reg2, hloop, hlen, hres, hframe⟩ :=
      ih (reg.bind id0 (data0.bind v0)) hall2 hnd2
    refine ⟨reg2, ?_, ?_, ?_, ?_⟩
    · simp only [ensureBoundLoop, hv0]
      exact hloop
    · simp only [DeferredRegistry.bind, List.length_cons] at hlen
      simp only [List.length_cons]
      omega
    · intro id data hmem v hv
      rcases List.mem_cons.mp hmem with h | h
      · cases h
        cases hv0.symm.trans hv
        rw [hframe _ hid0]
        simp [DeferredRegistry.resolve, DeferredRegistry.bind, List.lookup]
      · exact hres id data h v hv
    · intro id hid
      have hne : id ≠ id0 := by
        intro h
        exact hid (h ▸ List.mem_cons_self _ _)
      rw [hframe id (fun h => hid (List.mem_cons_of_mem _ h))]
      simp [DeferredRegistry.resolve, DeferredRegistry.bind, List.lookup,
        beq_eq_false_iff_ne.mpr hne]

/-- The binding loop fails at the first pending reservation whose fetch comes
back absent (missing key) or of the wrong shape (incorrect type), provided
every earlier reservation fetched an implementation. -/
theorem ensureBoundLoop_first_failure (fetcher : AnalysisValueFetcher) :
    ∀ (pre : List (Nat × DynamicLambda)) (id : Nat) (data : DynamicLambda)
      (rest : List (Nat × DynamicLambda)) (reg : DeferredRegistry),
      (∀ p ∈ pre, ∃ v, fetcher.get p.1 = .ok (some (.lambdaImpl v))) →
      (fetcher.get id = .ok none →
        ensureBoundLoop fetcher (pre ++ (id, data) :: rest) reg =
          .error (.missingKey id)) ∧
      (∀ w, fetcher.get id = .ok (some (.otherValue w)) →
        ensureBoundLoop fetcher (pre ++ (id, data) :: rest) reg =
          .error .incorrectType) := by
  intro pre
  induction pre with
  | nil =>
    intro id data rest reg _
    constructor
    · intro h
      simp [ensureBoundLoop, h]
    · intro w h
      simp [ensureBoundLoop, h]
  | cons p0 pre ih =>
    obtain ⟨id0, data0⟩ := p0
    intro id data rest reg hall
    obtain ⟨v0, hv0⟩ := hall (id0, data0) (List.mem_cons_self _ _)
    have hall2 : ∀ p ∈ pre, ∃ v, fetcher.get p.1 = .ok (some (.lambdaImpl v)) :=
      fun p hp => hall p (List.mem_cons_of_mem _ hp)
    constructor
    · intro h
      simp only [List.cons_append, ensureBoundLoop, hv0]
      exact (ih id data rest _ hall2).1 h
    · intro w h
      simp only [List.cons_append, ensureBoundLoop, hv0]
      exact (ih id data rest _ hall2).2 w h

/-- C6: ensure_bound fetches and binds an implementation for every pending
lambda, committing each reservation so the deferred registry resolves its id
to the bound lambda, and the number of committed entries equals the number of
registered lambdas; if the fetcher has no value for the first unfetchable
reservation the pass fails with the missing-key error naming it, and a value
of the wrong shape fails the pass with the internal incorrect-type error. -/
theorem dynamic_registry_ensure_bound_spec (self : DynamicRegistry)
    (reg : DeferredRegistry) (fetcher : AnalysisValueFetcher) :
    ((self.pending.map Prod.fst).Nodup →
      (∀ p ∈ self.pending, ∃ v, fetcher.get p.1 = .ok (some (.lambdaImpl v))) →
      ∃ reg2, self.ensure_bound reg fetcher = .ok reg2 ∧
        reg2.entries.length = self.pending.length + reg.entries.length ∧
        ∀ id data, (id, data) ∈ self.pending → ∀ v,
          fetcher.get id = .ok (some (.lambdaImpl v)) →
          reg2.resolve id = some (.boundLambda (data.bind v))) ∧
    (∀ pre id data rest, self.pending = pre ++ (id, data) :: rest →
      (∀ p ∈ pre, ∃ v, fetcher.get p.1 = .ok (some (.lambdaImpl v))) →
      (fetcher.get id = .ok none →
        self.ensure_bound reg fetcher = .error (.missingKey id)) ∧
      (∀ w, fetcher.get id = .ok (some (.otherValue w)) →
        self.ensure_bound reg fetcher = .error .incorrectType)) := by
  constructor
  · intro hnd hall
    obtain ⟨reg2, hloop, hlen, hres, _⟩ :=
      ensureBoundLoop_success fetcher self.pending reg hall hnd
    exact ⟨reg2, hloop, hlen, hres⟩
  · intro pre id data rest hsplit hall
    have := ensureBoundLoop_first_failure fetcher pre id data rest reg hall
    constructor
    · intro h
      show ensureBoundLoop fetcher self.pending reg = .error (.missingKey id)
      rw [hsplit]
      exact this.1 h
    · intro w h
      show ensureBoundLoop fetcher self.pending reg = .error .incorrectType
      rw [hsplit]
      exact this.2 w h

/-- C6 witness: two registered lambdas with reservations 0 and 1 and a
fetcher holding implementations for both; ensure_bound succeeds, commits two
entries, and resolves each reservation to its bound lambda. -/
theorem dynamic_registry_ensure_bound_spec_witness :
    (sampleDynamicRegistry.pending.map Prod.fst).Nodup ∧
    ∃ reg2,
      sampleDynamicRegistry.ensure_bound ⟨2, []⟩ sampleFetcher = .ok reg2 ∧
      reg2.entries.length =
        sampleDynamicRegistry.pending.length +
          (⟨2, []⟩ : DeferredRegistry).entries.length ∧
      ∀ id data, (id, data) ∈ sampleDynamicRegistry.pending → ∀ v,
        sampleFetcher.get id = .ok (some (.lambdaImpl v)) →
        DeferredRegistry.resolve reg2 id =
          some (.boundLambda (data.bind v)) :=
  ⟨by decide,
    (dynamic_registry_ensure_bound_spec sampleDynamicRegistry ⟨2, []⟩
        sampleFetcher).1
      (by decide)
      (by
        intro p hp
        rcases List.mem_cons.mp hp with h | h
        · exact ⟨"impl0", by rw [h]; rfl⟩
        · rcases List.mem_cons.mp h with h2 | h2
          · exact ⟨"impl1", by rw [h2]; rfl⟩
          · cases h2)⟩
